import Mathlib

/-!
Verification of the financesentiment frontend against its specification.

The repository sources under verification are the Next.js frontend
(`frontend/app/layout.tsx`, `frontend/app/research/page.tsx`,
`frontend/app/ticker/[ticker]/page.tsx`, and the components
`TickerTable`, `PullControlPanel`, `ScoreChart`).  JavaScript numbers are
embedded as an inductive `JsNumber` that distinguishes a finite rational
value from the non-finite values (NaN, Infinity, -Infinity): every use of
a numeric field in the rendered components is guarded by
`Number.isFinite`, which is exactly this distinction.  Date-bucket strings
(ISO `YYYY-MM-DD` dates compared with `localeCompare` / `<=`, both of
which order ISO dates chronologically) are embedded as natural-number day
keys.  The backend aggregation engine is not part of the sources and is
modelled from the specification where a claim needs it.
-/

namespace FinanceSentiment

/-- A JavaScript number as the frontend observes it: either a finite
rational value or one of the non-finite values (NaN, Infinity,
-Infinity), which all components treat uniformly through
`Number.isFinite`. -/
inductive JsNumber where
  | finite (val : ℚ)
  | nonfinite
deriving DecidableEq, Repr

/-- `Number.isFinite` on the embedded number. -/
def JsNumber.isFinite : JsNumber → Bool
  | .finite _ => true
  | .nonfinite => false

/-- A `DailyScore` row as consumed by the dashboard: the fields the
`TickerTable` component and the `Home` page read from the results
endpoint's JSON rows. -/
structure DailyScore where
  ticker : String
  subreddit : String
  mention_count : JsNumber
  unclear_count : JsNumber
  valid_count : JsNumber
  unclear_rate : JsNumber
  score_unweighted : JsNumber
  score_weighted : JsNumber
  ci95_low_unweighted : JsNumber
  ci95_high_unweighted : JsNumber
deriving DecidableEq, Repr

namespace TickerTable

/-- `const mentionCount = Number.isFinite(row.mention_count) ? row.mention_count : 0;` -/
def mentionCount (row : DailyScore) : ℚ :=
  match row.mention_count with
  | .finite v => v
  | .nonfinite => 0

/-- `const unclearCount = Number.isFinite(row.unclear_count) ? row.unclear_count : 0;` -/
def unclearCount (row : DailyScore) : ℚ :=
  match row.unclear_count with
  | .finite v => v
  | .nonfinite => 0

/-- `const fallbackValidN = Math.max(mentionCount - unclearCount, 0);` -/
def fallbackValidN (row : DailyScore) : ℚ :=
  max (mentionCount row - unclearCount row) 0

/-- `const validN = Number.isFinite(row.valid_count) ? row.valid_count : fallbackValidN;` -/
def validN (row : DailyScore) : ℚ :=
  match row.valid_count with
  | .finite v => v
  | .nonfinite => fallbackValidN row

/-- `const hasExactCi = Number.isFinite(row.ci95_low_unweighted) && Number.isFinite(row.ci95_high_unweighted);` -/
def hasExactCi (row : DailyScore) : Bool :=
  row.ci95_low_unweighted.isFinite && row.ci95_high_unweighted.isFinite

/-- `const ciLow = hasExactCi ? row.ci95_low_unweighted : row.score_unweighted;` -/
def ciLow (row : DailyScore) : JsNumber :=
  if hasExactCi row then row.ci95_low_unweighted else row.score_unweighted

/-- `const ciHigh = hasExactCi ? row.ci95_high_unweighted : row.score_unweighted;` -/
def ciHigh (row : DailyScore) : JsNumber :=
  if hasExactCi row then row.ci95_high_unweighted else row.score_unweighted

/-- `const unclearRate = Number.isFinite(row.unclear_rate) ? row.unclear_rate
      : (mentionCount > 0 ? unclearCount / mentionCount : 0);` -/
def unclearRate (row : DailyScore) : ℚ :=
  match row.unclear_rate with
  | .finite v => v
  | .nonfinite => if 0 < mentionCount row then unclearCount row / mentionCount row else 0

end TickerTable

/-- `layout.tsx`: `const hasLegacyAggregationFields = results.rows.some(
      (row) => !Number.isFinite(row.valid_count) || !Number.isFinite(row.ci95_low_unweighted)
        || !Number.isFinite(row.ci95_high_unweighted));` -/
def hasLegacyAggregationFields (rows : List DailyScore) : Bool :=
  rows.any fun row =>
    !row.valid_count.isFinite || !row.ci95_low_unweighted.isFinite ||
      !row.ci95_high_unweighted.isFinite

/-- `layout.tsx`: the legacy-aggregation notice section is rendered exactly
when `hasLegacyAggregationFields` is true
(`{hasLegacyAggregationFields ? <section>…</section> : null}`). -/
def legacyNoticeRendered (rows : List DailyScore) : Bool :=
  hasLegacyAggregationFields rows

/-- `PullControlPanel.tsx`: the fields of a polled `PullJobStatus` that the
panel's progress and heartbeat rendering reads.  `current_total_submissions`
is `number | null | undefined` in the frontend type; `null`/`undefined` are
embedded as `none`.  `heartbeat_utc` is a timestamp string parsed with
`new Date(...)`; the embedding carries the outcome of that parse as
`heartbeatParsedMs` (`none` for a missing string or an unparseable one,
i.e. `NaN` from `getTime()`, `some ms` for a successful parse in epoch
milliseconds). -/
structure PullJobStatus where
  status : String
  current_subreddit_progress : ℚ
  current_total_submissions : Option ℚ
  current_processed_submissions : ℚ
  heartbeatParsedMs : Option ℤ
deriving DecidableEq, Repr

/-- `Math.round`: JavaScript rounds half-way cases toward positive
infinity. -/
def jsRound (x : ℚ) : ℤ := ⌊x + 1 / 2⌋

/-- `function heartbeatAgeSeconds(heartbeatUtc)`: `null` for a missing or
unparseable timestamp, otherwise
`Math.max(Math.round((Date.now() - parsedMs) / 1000), 0)`.  `nowMs` is
`Date.now()`. -/
def heartbeatAgeSeconds (parsedMs : Option ℤ) (nowMs : ℤ) : Option ℤ :=
  match parsedMs with
  | none => none
  | some ms => some (max (jsRound ((nowMs - ms : ℚ) / 1000)) 0)

/-- `function heartbeatTone(ageSeconds)`. -/
def heartbeatTone (ageSeconds : Option ℤ) : String :=
  match ageSeconds with
  | none => "score-pill score-pill-neutral"
  | some a =>
    if a ≤ 12 then "score-pill score-pill-positive"
    else if a ≤ 35 then "score-pill score-pill-neutral"
    else "score-pill score-pill-negative"

/-- `function heartbeatLabel(ageSeconds)`. -/
def heartbeatLabel (ageSeconds : Option ℤ) : String :=
  match ageSeconds with
  | none => "heartbeat n/a"
  | some a =>
    if a ≤ 12 then "heartbeat active (" ++ toString a ++ "s ago)"
    else if a ≤ 35 then "heartbeat slow (" ++ toString a ++ "s ago)"
    else "heartbeat stale (" ++ toString a ++ "s ago)"

/-- `function statusTone(status)`. -/
def statusTone (status : String) : String :=
  if status = "success" then "score-pill score-pill-positive"
  else if status = "partial_success" then "score-pill score-pill-neutral"
  else if status = "failed" then "score-pill score-pill-negative"
  else if status = "running" ∨ status = "queued" then "score-pill score-pill-neutral"
  else "score-pill score-pill-neutral"

/-- The job-status pill rendered in the panel:
`<span className={statusTone(job.status)}>job {job.status}</span>`. -/
def jobStatusPill (job : PullJobStatus) : String × String :=
  (statusTone job.status, "job " ++ job.status)

/-- `function formatProgress(progress)`. -/
def formatProgress (progress : ℚ) : String :=
  toString (jsRound (max (min progress 1) 0 * 100)) ++ "%"

/-- `const hasCurrentTotal = typeof currentSubmissionTotal === 'number' && currentSubmissionTotal >= 0;`
(`currentSubmissionTotal = job?.current_total_submissions`). -/
def hasCurrentTotal (job : PullJobStatus) : Bool :=
  match job.current_total_submissions with
  | some total => decide (0 ≤ total)
  | none => false

/-- `const currentProcessed = Math.max(job?.current_processed_submissions ?? 0, 0);` -/
def currentProcessed (job : PullJobStatus) : ℚ :=
  max job.current_processed_submissions 0

/-- `const currentSubredditProgress = Math.max(Math.min(job?.current_subreddit_progress ?? 0, 1), 0);` -/
def currentSubredditProgress (job : PullJobStatus) : ℚ :=
  max (min job.current_subreddit_progress 1) 0

/-- The two shapes the current-source sub-progress row can take: the
determinate `processed/total (pct)` text with a width-styled bar, or the
indeterminate `discovering submissions (n processed)` text with a pulsing
bar. -/
inductive SubProgressView where
  | determinate (processed total : ℚ) (pct : String)
  | indeterminate (processed : ℚ)
deriving DecidableEq, Repr

/-- Whether the rendered sub-progress row is the determinate shape. -/
def SubProgressView.isDeterminate : SubProgressView → Bool
  | .determinate _ _ _ => true
  | .indeterminate _ => false

/-- The current-subreddit progress row of `PullControlPanel`:
`hasCurrentTotal ? `${currentProcessed}/${Math.max(currentSubmissionTotal ?? 0, 0)} (${formatProgress(currentSubredditProgress)})`
: `discovering submissions (${currentProcessed} processed)``, with the
matching determinate/indeterminate bar right below. -/
def renderSubProgress (job : PullJobStatus) : SubProgressView :=
  if hasCurrentTotal job then
    .determinate (currentProcessed job)
      (max (job.current_total_submissions.getD 0) 0)
      (formatProgress (currentSubredditProgress job))
  else
    .indeterminate (currentProcessed job)

/-- The `try { panel = await apiGet(...) } catch { panel = null }` pattern
used by `layout.tsx` for the quality and analytics fetches and by
`research/page.tsx` for the quality fetch: the fetch outcome (a payload or
a thrown error) is reduced to an optional panel value and the error is
swallowed. -/
def resolveOptionalPanel {α : Type} (outcome : Except String α) : Option α :=
  match outcome with
  | .ok value => some value
  | .error _ => none

/-- The optional panels of the `Home` page: `{quality ? <QualityPanel/> : null}`
and `{analytics ? <AnalyticsDeck/> : null}` render exactly when the
corresponding value is non-null. -/
structure HomeOptionalPanels (Q A : Type) where
  quality : Option Q
  analytics : Option A
deriving DecidableEq, Repr

/-- `layout.tsx` (`Home`): the quality and analytics fetches each sit in
their own `try`/`catch` that falls back to `null`, so the page body is
produced for every combination of fetch outcomes. -/
def renderHomeOptionalPanels {Q A : Type} (quality : Except String Q)
    (analytics : Except String A) : HomeOptionalPanels Q A :=
  { quality := resolveOptionalPanel quality
    analytics := resolveOptionalPanel analytics }

/-- `research/page.tsx` (`ResearchPage`): the quality fetch is wrapped in
`try { ... } catch { quality = null }` and the panel is rendered only when
the value is non-null. -/
def renderResearchQualityPanel {Q : Type} (quality : Except String Q) : Option Q :=
  resolveOptionalPanel quality

/-- `layout.tsx`: `const selectedResultsWindow = (params.window || '').toLowerCase() === '7d' ? '7d' : '24h';` -/
def selectedResultsWindow (windowParam : Option String) : String :=
  if (windowParam.getD "").toLower = "7d" then "7d" else "24h"

/-- `layout.tsx`: `Number.parseInt(params.analytics_days || '21', 10)`
followed by
`Number.isFinite(parsed) && parsed >= 7 && parsed <= 120 ? parsed : 21`.
`Number.parseInt` always yields an integer or `NaN`, embedded as
`Option ℤ` (`none` for `NaN`). -/
def analyticsDays (parsed : Option ℤ) : ℤ :=
  match parsed with
  | some n => if 7 ≤ n ∧ n ≤ 120 then n else 21
  | none => 21

/-- `ticker/[ticker]/page.tsx`: `Number.parseInt(qp.days ?? '30', 10)`
followed by
`Number.isFinite(parsed) && parsed >= 1 && parsed <= 365 ? parsed : 30`. -/
def tickerDays (parsed : Option ℤ) : ℤ :=
  match parsed with
  | some n => if 1 ≤ n ∧ n ≤ 365 then n else 30
  | none => 30

/-- `research/page.tsx`: `Number.parseInt(params.max_rows || '5000', 10)`
followed by
`Number.isFinite(parsed) && parsed > 0 ? Math.min(parsed, 100000) : 5000`. -/
def maxRows (parsed : Option ℤ) : ℤ :=
  match parsed with
  | some n => if 0 < n then min n 100000 else 5000
  | none => 5000

/-- `layout.tsx` / `research/page.tsx`:
`const requested = (params.subreddit || '').trim();` then
`!requested || requested.toUpperCase() === 'ALL' ? 'ALL'
 : (subreddits.find((s) => s.toLowerCase() === requested.toLowerCase()) ?? 'ALL')`. -/
def selectedSubreddit (configured : List String) (subredditParam : Option String) : String :=
  let requested := (subredditParam.getD "").trim
  if requested = "" ∨ requested.toUpper = "ALL" then "ALL"
  else
    match configured.find? fun s => s.toLower = requested.toLower with
    | some s => s
    | none => "ALL"

/-- A point of a ticker's score series as `ScoreChart.tsx` consumes it.
The `date_bucket_berlin` field is an ISO `YYYY-MM-DD` string in the
frontend; string comparison (`localeCompare` for sorting, `<=` in the
alignment loop) on ISO dates is chronological order, embedded here as a
natural-number day key. -/
structure TickerPoint where
  date_bucket_berlin : ℕ
  score_weighted : ℚ
deriving DecidableEq, Repr

/-- A close-price point of the price overlay series. -/
structure TickerPricePoint where
  date_bucket_berlin : ℕ
  close_price : ℚ
deriving DecidableEq, Repr

/-- `[...pricePoints].sort((a, b) => a.date_bucket_berlin.localeCompare(b.date_bucket_berlin))`:
a stable ascending sort of the price points by date bucket. -/
def sortPricesByDate (pricePoints : List TickerPricePoint) : List TickerPricePoint :=
  pricePoints.mergeSort fun a b => decide (a.date_bucket_berlin ≤ b.date_bucket_berlin)

/-- The `while (cursor < sortedPrices.length && sortedPrices[cursor].date_bucket_berlin <= point.date_bucket_berlin)`
loop of `alignPricesToPoints`: consume the leading price points dated at
or before `d`, remembering the close price of the last one consumed. -/
def alignAdvance (d : ℕ) : List TickerPricePoint → Option ℚ → List TickerPricePoint × Option ℚ
  | [], latestSeen => ([], latestSeen)
  | price :: rest, latestSeen =>
    if price.date_bucket_berlin ≤ d then alignAdvance d rest (some price.close_price)
    else (price :: rest, latestSeen)

/-- The `points.map((point) => { while ...; return latestSeen; })` body of
`alignPricesToPoints`: one entry per point, threading the cursor position
and `latestSeen` through the whole traversal. -/
def alignLoop : List TickerPoint → List TickerPricePoint → Option ℚ → List (Option ℚ)
  | [], _, _ => []
  | point :: restPoints, prices, latestSeen =>
    let st := alignAdvance point.date_bucket_berlin prices latestSeen
    st.2 :: alignLoop restPoints st.1 st.2

/-- `function alignPricesToPoints(points, pricePoints)` from
`ScoreChart.tsx`: all-`null` when either list is empty, otherwise the
cursor/`latestSeen` sweep over the date-sorted price points. -/
def alignPricesToPoints (points : List TickerPoint)
    (pricePoints : List TickerPricePoint) : List (Option ℚ) :=
  if points.isEmpty || pricePoints.isEmpty then points.map fun _ => none
  else alignLoop points (sortPricesByDate pricePoints) none

/-- The behaviour the claim ascribes to `alignPricesToPoints`, written
from the claim's words: entry `i` is the close price of the latest price
point (the last one in date-sorted order) whose date bucket is at or
before the date bucket of `points[i]`, and `null` when no price point is
dated at or before that bucket. -/
def alignPricesClaimed (points : List TickerPoint)
    (pricePoints : List TickerPricePoint) : List (Option ℚ) :=
  let sorted := sortPricesByDate pricePoints
  points.map fun point =>
    ((sorted.filter fun price =>
        decide (price.date_bucket_berlin ≤ point.date_bucket_berlin)).getLast?).map
      fun price => price.close_price

/-- Modelled from the spec: the backend Aggregator and its `DailyScore`
persistence are not among the sources (only the frontend is), so the
sufficient statistics of a `DailyScore` row are taken from the data-model
section of the specification: `valid_count` (non-UNCLEAR),
`score_sum_unweighted`, `weighted_numerator`, `weighted_denominator`,
`sum_of_squares`, plus the label counts, `unclear_count`, and
`mention_count` that feed `unclear_rate`. -/
structure SufficientStats where
  valid_count : ℕ
  score_sum_unweighted : ℚ
  weighted_numerator : ℚ
  weighted_denominator : ℚ
  sum_of_squares : ℚ
  bullish_count : ℕ
  bearish_count : ℕ
  neutral_count : ℕ
  unclear_count : ℕ
  mention_count : ℕ
deriving DecidableEq, Repr

/-- Modelled from the spec: merging two `DailyScore` rows for the same
(day-bucket, source, ticker) key is exact field-wise summation of their
sufficient statistics. -/
def mergeStats (a b : SufficientStats) : SufficientStats where
  valid_count := a.valid_count + b.valid_count
  score_sum_unweighted := a.score_sum_unweighted + b.score_sum_unweighted
  weighted_numerator := a.weighted_numerator + b.weighted_numerator
  weighted_denominator := a.weighted_denominator + b.weighted_denominator
  sum_of_squares := a.sum_of_squares + b.sum_of_squares
  bullish_count := a.bullish_count + b.bullish_count
  bearish_count := a.bearish_count + b.bearish_count
  neutral_count := a.neutral_count + b.neutral_count
  unclear_count := a.unclear_count + b.unclear_count
  mention_count := a.mention_count + b.mention_count

/-- Modelled from the spec: the derived fields recomputable from the
sufficient statistics alone.  `score_unweighted = sum / valid_count`
(0 when `valid_count = 0`), `score_weighted =
weighted_numerator / weighted_denominator` (falling back to
`score_unweighted` when the denominator is 0), `unclear_rate =
unclear_count / mention_count` (0 when `mention_count = 0`); the variance
accumulator `sum_of_squares / valid_count` is the rational quantity
underlying the stddev/CI derivation (the square root and the 1.96 scaling
are order-preserving and carry no extra information). -/
structure DerivedScores where
  score_unweighted : ℚ
  score_weighted : ℚ
  unclear_rate : ℚ
  variance : ℚ
deriving DecidableEq, Repr

/-- Modelled from the spec: `derive(stats)`. -/
def deriveScores (s : SufficientStats) : DerivedScores :=
  let score_unweighted : ℚ :=
    if s.valid_count = 0 then 0 else s.score_sum_unweighted / s.valid_count
  { score_unweighted := score_unweighted
    score_weighted :=
      if s.weighted_denominator = 0 then score_unweighted
      else s.weighted_numerator / s.weighted_denominator
    unclear_rate :=
      if s.mention_count = 0 then 0 else (s.unclear_count : ℚ) / s.mention_count
    variance :=
      if s.valid_count = 0 then 0 else s.sum_of_squares / s.valid_count }

/-- Modelled from the spec: a stored `DailyScore` row is its sufficient
statistics together with the derived view. -/
structure DailyScoreRow where
  stats : SufficientStats
  derived : DerivedScores
deriving DecidableEq, Repr

/-- Modelled from the spec: merging two `DailyScore` rows for the same key
sums the sufficient statistics field-wise and then re-derives the derived
fields from the summed statistics. -/
def mergeDailyScore (a b : DailyScoreRow) : DailyScoreRow :=
  let stats := mergeStats a.stats b.stats
  { stats := stats, derived := deriveScores stats }

theorem mergeStats_assoc (A B C : SufficientStats) :
    mergeStats A (mergeStats B C) = mergeStats (mergeStats A B) C := by
  simp only [mergeStats, SufficientStats.mk.injEq]
  refine ⟨?_, ?_, ?_, ?_, ?_, ?_, ?_, ?_, ?_, ?_⟩ <;> ring

theorem mergeStats_comm (A B : SufficientStats) :
    mergeStats A B = mergeStats B A := by
  simp only [mergeStats, SufficientStats.mk.injEq]
  refine ⟨?_, ?_, ?_, ?_, ?_, ?_, ?_, ?_, ?_, ?_⟩ <;> ring

/-- C1: merging two DailyScore rows for the same (day-bucket, source,
ticker) key is exact field-wise summation of their sufficient statistics
followed by re-deriving, and this merge is commutative and associative on
all sufficient-statistics fields: for all rows A, B, C of the same key,
merge(A, merge(B, C)) = merge(merge(A, B), C) and merge(A, B) =
merge(B, A). -/
theorem dailyScore_merge_comm_assoc :
    (∀ A B C : SufficientStats,
        mergeStats A (mergeStats B C) = mergeStats (mergeStats A B) C) ∧
    (∀ A B : SufficientStats, mergeStats A B = mergeStats B A) ∧
    (∀ A B C : DailyScoreRow,
        mergeDailyScore A (mergeDailyScore B C) = mergeDailyScore (mergeDailyScore A B) C) ∧
    (∀ A B : DailyScoreRow, mergeDailyScore A B = mergeDailyScore B A) := by
  refine ⟨mergeStats_assoc, mergeStats_comm, ?_, ?_⟩
  · intro A B C
    simp only [mergeDailyScore, mergeStats_assoc]
  · intro A B
    simp only [mergeDailyScore, mergeStats_comm A.stats B.stats]

/-- C2: for a rendered DailyScore row whose `unclear_rate` is not finite,
the displayed unclear rate is `unclear_count / mention_count` when
`mention_count > 0` and `0` (not NaN) when `mention_count = 0`; a finite
`unclear_rate` is displayed unchanged. -/
theorem tickerTable_unclearRate_spec (row : DailyScore) (m u : ℚ)
    (hm : row.mention_count = .finite m) (hu : row.unclear_count = .finite u) :
    (row.unclear_rate = .nonfinite →
        (0 < m → TickerTable.unclearRate row = u / m) ∧
        (m = 0 → TickerTable.unclearRate row = 0)) ∧
    (∀ r : ℚ, row.unclear_rate = .finite r → TickerTable.unclearRate row = r) := by
  constructor
  · intro hnf
    constructor
    · intro hpos
      simp [TickerTable.unclearRate, TickerTable.mentionCount, TickerTable.unclearCount,
        hnf, hm, hu, hpos]
    · intro hzero
      simp [TickerTable.unclearRate, TickerTable.mentionCount, hnf, hm, hzero]
  · intro r hr
    simp [TickerTable.unclearRate, hr]

theorem tickerTable_unclearRate_spec_witness :
    TickerTable.unclearRate
        { ticker := "TSLA", subreddit := "stocks", mention_count := .finite 4,
          unclear_count := .finite 1, valid_count := .nonfinite,
          unclear_rate := .nonfinite, score_unweighted := .finite 0,
          score_weighted := .finite 0, ci95_low_unweighted := .nonfinite,
          ci95_high_unweighted := .nonfinite } = 1 / 4 :=
  ((tickerTable_unclearRate_spec _ 4 1 rfl rfl).1 rfl).1 (by norm_num)

/-- C3: the dashboard classifies a result set as containing legacy rows
exactly when some row has a non-finite `valid_count`,
`ci95_low_unweighted`, or `ci95_high_unweighted`, and the
legacy-aggregation notice is rendered if and only if that holds. -/
theorem legacyNotice_iff (rows : List DailyScore) :
    (legacyNoticeRendered rows = true ↔
      ∃ row ∈ rows, row.valid_count.isFinite = false ∨
        row.ci95_low_unweighted.isFinite = false ∨
        row.ci95_high_unweighted.isFinite = false) ∧
    legacyNoticeRendered rows = hasLegacyAggregationFields rows := by
  refine ⟨?_, rfl⟩
  simp [legacyNoticeRendered, hasLegacyAggregationFields, List.any_eq_true, or_assoc]

/-- C4: the displayed Valid N is the row's `valid_count` when that field
is finite, and otherwise the never-negative fallback
`max(mention_count - unclear_count, 0)`. -/
theorem tickerTable_validN_spec (row : DailyScore) (m u : ℚ)
    (hm : row.mention_count = .finite m) (hu : row.unclear_count = .finite u) :
    (∀ v : ℚ, row.valid_count = .finite v → TickerTable.validN row = v) ∧
    (row.valid_count = .nonfinite →
        TickerTable.validN row = max (m - u) 0 ∧ 0 ≤ TickerTable.validN row) := by
  constructor
  · intro v hv
    simp [TickerTable.validN, hv]
  · intro hnf
    have hval : TickerTable.validN row = max (m - u) 0 := by
      simp [TickerTable.validN, TickerTable.fallbackValidN, TickerTable.mentionCount,
        TickerTable.unclearCount, hnf, hm, hu]
    exact ⟨hval, by rw [hval]; exact le_max_right _ _⟩

theorem tickerTable_validN_spec_witness :
    TickerTable.validN
        { ticker := "NVDA", subreddit := "stocks", mention_count := .finite 5,
          unclear_count := .finite 2, valid_count := .nonfinite,
          unclear_rate := .finite 0, score_unweighted := .finite 0,
          score_weighted := .finite 0, ci95_low_unweighted := .nonfinite,
          ci95_high_unweighted := .nonfinite } = max (5 - 2 : ℚ) 0 ∧
      (0 : ℚ) ≤ TickerTable.validN
        { ticker := "NVDA", subreddit := "stocks", mention_count := .finite 5,
          unclear_count := .finite 2, valid_count := .nonfinite,
          unclear_rate := .finite 0, score_unweighted := .finite 0,
          score_weighted := .finite 0, ci95_low_unweighted := .nonfinite,
          ci95_high_unweighted := .nonfinite } :=
  (tickerTable_validN_spec _ 5 2 rfl rfl).2 rfl

/-- C5: when either CI bound is non-finite the displayed 95% confidence
interval collapses to the point interval at `score_unweighted`; when both
bounds are finite they are displayed unchanged. -/
theorem tickerTable_ci_spec (row : DailyScore) :
    ((row.ci95_low_unweighted.isFinite = false ∨
        row.ci95_high_unweighted.isFinite = false) →
      TickerTable.ciLow row = row.score_unweighted ∧
        TickerTable.ciHigh row = row.score_unweighted) ∧
    (∀ lo hi : ℚ, row.ci95_low_unweighted = .finite lo →
        row.ci95_high_unweighted = .finite hi →
      TickerTable.ciLow row = .finite lo ∧ TickerTable.ciHigh row = .finite hi) := by
  constructor
  · intro h
    have hb : TickerTable.hasExactCi row = false := by
      rcases h with h | h <;> simp [TickerTable.hasExactCi, h]
    exact ⟨by simp [TickerTable.ciLow, hb], by simp [TickerTable.ciHigh, hb]⟩
  · intro lo hi hlo hhi
    have hb : TickerTable.hasExactCi row = true := by
      simp [TickerTable.hasExactCi, hlo, hhi, JsNumber.isFinite]
    exact ⟨by simp [TickerTable.ciLow, hb, hlo], by simp [TickerTable.ciHigh, hb, hhi]⟩

theorem tickerTable_ci_spec_witness :
    TickerTable.ciLow
        { ticker := "AAPL", subreddit := "stocks", mention_count := .finite 3,
          unclear_count := .finite 0, valid_count := .finite 3,
          unclear_rate := .finite 0, score_unweighted := .finite (1 / 5),
          score_weighted := .finite 0, ci95_low_unweighted := .nonfinite,
          ci95_high_unweighted := .finite 1 } = .finite (1 / 5) ∧
      TickerTable.ciHigh
        { ticker := "AAPL", subreddit := "stocks", mention_count := .finite 3,
          unclear_count := .finite 0, valid_count := .finite 3,
          unclear_rate := .finite 0, score_unweighted := .finite (1 / 5),
          score_weighted := .finite 0, ci95_low_unweighted := .nonfinite,
          ci95_high_unweighted := .finite 1 } = .finite (1 / 5) :=
  (tickerTable_ci_spec _).1 (Or.inl rfl)

/-- C6: the current-source sub-progress is rendered as the determinate
processed/total row (with a percentage) if and only if
`current_total_submissions` is a number greater than or equal to 0; for a
null/undefined total the indeterminate discovering-submissions row is
rendered instead. -/
theorem subProgress_determinate_iff (job : PullJobStatus) :
    (renderSubProgress job).isDeterminate = true ↔
      ∃ total : ℚ, job.current_total_submissions = some total ∧ 0 ≤ total := by
  cases h : job.current_total_submissions with
  | none =>
    simp [renderSubProgress, hasCurrentTotal, h, SubProgressView.isDeterminate]
  | some total =>
    by_cases h0 : (0 : ℚ) ≤ total <;>
      simp [renderSubProgress, hasCurrentTotal, h, h0, SubProgressView.isDeterminate]

/-- C7: the computed heartbeat age is `null` exactly for a missing or
unparseable timestamp and otherwise a non-negative integer number of
seconds; the indicator shows the stale (negative-tone) classification
exactly when the age exceeds 35 seconds, with the stale label text in
that case; and the heartbeat value does not change the rendered
job-status pill. -/
theorem heartbeat_spec :
    (∀ (parsedMs : Option ℤ) (nowMs : ℤ),
        (heartbeatAgeSeconds parsedMs nowMs = none ↔ parsedMs = none)) ∧
    (∀ (parsedMs : Option ℤ) (nowMs n : ℤ),
        heartbeatAgeSeconds parsedMs nowMs = some n → 0 ≤ n) ∧
    (∀ (parsedMs : Option ℤ) (nowMs : ℤ),
        (heartbeatTone (heartbeatAgeSeconds parsedMs nowMs) =
            "score-pill score-pill-negative" ↔
          ∃ n, heartbeatAgeSeconds parsedMs nowMs = some n ∧ 35 < n)) ∧
    (∀ n : ℤ, 35 < n →
        heartbeatLabel (some n) = "heartbeat stale (" ++ toString n ++ "s ago)") ∧
    (∀ (job : PullJobStatus) (hb : Option ℤ),
        jobStatusPill { job with heartbeatParsedMs := hb } = jobStatusPill job) := by
  refine ⟨?_, ?_, ?_, ?_, ?_⟩
  · intro parsedMs nowMs
    cases parsedMs <;> simp [heartbeatAgeSeconds]
  · intro parsedMs nowMs n h
    cases parsedMs with
    | none => simp [heartbeatAgeSeconds] at h
    | some ms =>
      simp only [heartbeatAgeSeconds, Option.some.injEq] at h
      omega
  · intro parsedMs nowMs
    cases hage : heartbeatAgeSeconds parsedMs nowMs with
    | none => simp [heartbeatTone]
    | some a =>
      by_cases h12 : a ≤ 12
      · have h35 : ¬35 < a := by omega
        simp [heartbeatTone, h12, h35]
      · by_cases h35 : a ≤ 35
        · have h35' : ¬35 < a := by omega
          simp [heartbeatTone, h12, h35, h35']
        · have h35' : 35 < a := by omega
          simp [heartbeatTone, h12, h35, h35']
  · intro n h
    have h12 : ¬n ≤ 12 := by omega
    have h35 : ¬n ≤ 35 := by omega
    simp [heartbeatLabel, h12, h35]
  · intro job hb
    rfl

theorem heartbeat_spec_witness :
    heartbeatTone (heartbeatAgeSeconds (some 0) 40000) =
        "score-pill score-pill-negative" ∧
      heartbeatLabel (some 40) = "heartbeat stale (" ++ toString (40 : ℤ) ++ "s ago)" ∧
      jobStatusPill ⟨"running", 0, none, 0, some 7⟩ =
        jobStatusPill ⟨"running", 0, none, 0, none⟩ :=
  ⟨(heartbeat_spec.2.2.1 (some 0) 40000).mpr
      ⟨40, by norm_num [heartbeatAgeSeconds, jsRound], by decide⟩,
    heartbeat_spec.2.2.2.1 40 (by decide),
    heartbeat_spec.2.2.2.2 ⟨"running", 0, none, 0, none⟩ (some 7)⟩

/-- C8: for every outcome of the quality and analytics API requests, the
dashboard and research pages still produce a page: a failed fetch makes
the corresponding panel value `null` (the panel is omitted) and the error
is not propagated out of the render. -/
theorem optionalPanels_resilient :
    ∀ (Q A : Type) (q : Except String Q) (a : Except String A),
      ((∃ e, q = .error e) → (renderHomeOptionalPanels q a).quality = none) ∧
      (∀ v, q = .ok v → (renderHomeOptionalPanels q a).quality = some v) ∧
      ((∃ e, a = .error e) → (renderHomeOptionalPanels q a).analytics = none) ∧
      (∀ v, a = .ok v → (renderHomeOptionalPanels q a).analytics = some v) ∧
      ((∃ e, q = .error e) → renderResearchQualityPanel q = none) ∧
      (∀ v, q = .ok v → renderResearchQualityPanel q = some v) := by
  intro Q A q a
  refine ⟨?_, ?_, ?_, ?_, ?_, ?_⟩
  · rintro ⟨e, rfl⟩
    rfl
  · rintro v rfl
    rfl
  · rintro ⟨e, rfl⟩
    rfl
  · rintro v rfl
    rfl
  · rintro ⟨e, rfl⟩
    rfl
  · rintro v rfl
    rfl

theorem optionalPanels_resilient_witness :
    (@renderHomeOptionalPanels ℕ ℕ (Except.error "HTTP 500") (Except.ok 7)).quality = none ∧
      (@renderHomeOptionalPanels ℕ ℕ (Except.error "HTTP 500") (Except.ok 7)).analytics = some 7 ∧
      @renderResearchQualityPanel ℕ (Except.error "HTTP 500") = none :=
  ⟨(optionalPanels_resilient ℕ ℕ (Except.error "HTTP 500") (Except.ok 7)).1
      ⟨"HTTP 500", rfl⟩,
    (optionalPanels_resilient ℕ ℕ (Except.error "HTTP 500") (Except.ok 7)).2.2.2.1 7 rfl,
    (optionalPanels_resilient ℕ ℕ (Except.error "HTTP 500") (Except.ok 0)).2.2.2.2.1
      ⟨"HTTP 500", rfl⟩⟩

/-- C9: the pages' parsed query-parameter settings always land in their
valid ranges: the results window is '7d' exactly for the case-insensitive
input '7d' and '24h' otherwise; analytics days is an integer in [7, 120]
defaulting to 21; the ticker page's days is an integer in [1, 365]
defaulting to 30; the evaluation max_rows is a positive integer capped at
100000 defaulting to 5000; and a requested subreddit matching nothing in
the configured list case-insensitively resolves to 'ALL'. -/
theorem queryParam_parsing_safe :
    (∀ w : Option String,
        (selectedResultsWindow w = "7d" ↔ (w.getD "").toLower = "7d") ∧
        (selectedResultsWindow w = "7d" ∨ selectedResultsWindow w = "24h")) ∧
    (∀ p : Option ℤ, 7 ≤ analyticsDays p ∧ analyticsDays p ≤ 120) ∧
    analyticsDays none = 21 ∧
    (∀ p : Option ℤ, 1 ≤ tickerDays p ∧ tickerDays p ≤ 365) ∧
    tickerDays none = 30 ∧
    (∀ p : Option ℤ, 0 < maxRows p ∧ maxRows p ≤ 100000) ∧
    maxRows none = 5000 ∧
    (∀ (configured : List String) (sp : Option String),
        (∀ s ∈ configured, s.toLower ≠ ((sp.getD "").trim).toLower) →
          selectedSubreddit configured sp = "ALL") := by
  refine ⟨?_, ?_, rfl, ?_, rfl, ?_, rfl, ?_⟩
  · intro w
    by_cases h : (w.getD "").toLower = "7d" <;>
      simp [selectedResultsWindow, h]
  · intro p
    cases p with
    | none => simp [analyticsDays]
    | some n =>
      simp only [analyticsDays]
      by_cases h : 7 ≤ n ∧ n ≤ 120 <;> simp [h]
  · intro p
    cases p with
    | none => simp [tickerDays]
    | some n =>
      simp only [tickerDays]
      by_cases h : 1 ≤ n ∧ n ≤ 365 <;> simp [h]
  · intro p
    cases p with
    | none => simp [maxRows]
    | some n =>
      simp only [maxRows]
      by_cases h : 0 < n <;> simp [h]
  · intro configured sp hnone
    simp only [selectedSubreddit]
    by_cases hall : (sp.getD "").trim = "" ∨ ((sp.getD "").trim).toUpper = "ALL"
    · simp [hall]
    · have hfind : (configured.find? fun s =>
          s.toLower = ((sp.getD "").trim).toLower) = none := by
        rw [List.find?_eq_none]
        intro s hs
        simp [hnone s hs]
      simp [hall, hfind]

theorem queryParam_parsing_safe_witness :
    selectedSubreddit [] (some "Finanzen") = "ALL" ∧
      7 ≤ analyticsDays (some 500) ∧ analyticsDays (some 500) ≤ 120 :=
  ⟨queryParam_parsing_safe.2.2.2.2.2.2.2 [] (some "Finanzen")
      (by intro s hs; cases hs),
    queryParam_parsing_safe.2.1 (some 500)⟩

/-- The cursor loop of `alignPricesToPoints` consumes exactly the leading
price points dated at or before the current point, and `latestSeen`
becomes the close price of the last consumed one (or stays put when none
is consumed). -/
theorem alignAdvance_eq (d : ℕ) :
    ∀ (prices : List TickerPricePoint) (latest : Option ℚ),
      alignAdvance d prices latest =
        (prices.dropWhile fun pr => decide (pr.date_bucket_berlin ≤ d),
          match (prices.takeWhile fun pr =>
              decide (pr.date_bucket_berlin ≤ d)).getLast? with
          | some pr => some pr.close_price
          | none => latest)
  | [], latest => by simp [alignAdvance]
  | price :: rest, latest => by
    by_cases h : price.date_bucket_berlin ≤ d
    · rw [alignAdvance, if_pos h, alignAdvance_eq d rest (some price.close_price)]
      have htw : ((price :: rest).takeWhile fun pr =>
          decide (pr.date_bucket_berlin ≤ d)) =
            price :: (rest.takeWhile fun pr => decide (pr.date_bucket_berlin ≤ d)) := by
        simp [List.takeWhile_cons, h]
      have hdw : ((price :: rest).dropWhile fun pr =>
          decide (pr.date_bucket_berlin ≤ d)) =
            rest.dropWhile fun pr => decide (pr.date_bucket_berlin ≤ d) := by
        simp [List.dropWhile_cons, h]
      rw [htw, hdw]
      have hcons : (price :: (rest.takeWhile fun pr =>
          decide (pr.date_bucket_berlin ≤ d))).getLast? =
            ((rest.takeWhile fun pr =>
              decide (pr.date_bucket_berlin ≤ d)).getLast?).or (some price) := by
        have happ : (([price] ++ (rest.takeWhile fun pr =>
            decide (pr.date_bucket_berlin ≤ d)))).getLast? =
              ((rest.takeWhile fun pr =>
                decide (pr.date_bucket_berlin ≤ d)).getLast?).or [price].getLast? :=
          List.getLast?_append
        simpa using happ
      rw [hcons]
      cases (rest.takeWhile fun pr => decide (pr.date_bucket_berlin ≤ d)).getLast? <;>
        simp
    · rw [alignAdvance, if_neg h]
      simp [List.dropWhile_cons, List.takeWhile_cons, h]

/-- On a list sorted by date bucket, filtering by "dated at or before `d`"
is the same as taking the longest such prefix. -/
theorem filter_dateLe_eq_takeWhile (d : ℕ) :
    ∀ l : List TickerPricePoint,
      l.Pairwise (fun a b => a.date_bucket_berlin ≤ b.date_bucket_berlin) →
        (l.filter fun pr => decide (pr.date_bucket_berlin ≤ d)) =
          l.takeWhile fun pr => decide (pr.date_bucket_berlin ≤ d)
  | [], _ => by simp
  | price :: rest, h => by
    rcases List.pairwise_cons.mp h with ⟨hhd, htl⟩
    by_cases hle : price.date_bucket_berlin ≤ d
    · simp [List.filter_cons, List.takeWhile_cons, hle,
        filter_dateLe_eq_takeWhile d rest htl]
    · have hd : decide (price.date_bucket_berlin ≤ d) = false := by
        simp [hle]
      rw [List.filter_cons, List.takeWhile_cons, hd]
      simp only [Bool.false_eq_true, if_false]
      rw [List.filter_eq_nil_iff]
      intro x hx
      have hpx : price.date_bucket_berlin ≤ x.date_bucket_berlin := hhd x hx
      simp only [decide_eq_true_eq]
      omega

/-- The traversal of `alignPricesToPoints`, for sorted points over sorted
prices, computes per point the close price of the last price point dated
at or before it (falling back to the incoming `latestSeen`). -/
theorem alignLoop_eq :
    ∀ (points : List TickerPoint) (prices : List TickerPricePoint) (latest : Option ℚ),
      prices.Pairwise (fun a b => a.date_bucket_berlin ≤ b.date_bucket_berlin) →
      points.Pairwise (fun a b => a.date_bucket_berlin ≤ b.date_bucket_berlin) →
      alignLoop points prices latest =
        points.map fun point =>
          match (prices.filter fun pr =>
              decide (pr.date_bucket_berlin ≤ point.date_bucket_berlin)).getLast? with
          | some pr => some pr.close_price
          | none => latest
  | [], _, _, _, _ => rfl
  | point :: restPoints, prices, latest, hprices, hpoints => by
    rcases List.pairwise_cons.mp hpoints with ⟨hhd, htl⟩
    rw [alignLoop]
    simp only [alignAdvance_eq]
    rw [List.map_cons]
    rw [filter_dateLe_eq_takeWhile point.date_bucket_berlin prices hprices]
    refine congrArg₂ _ rfl ?_
    rw [alignLoop_eq restPoints
      (prices.dropWhile fun pr =>
        decide (pr.date_bucket_berlin ≤ point.date_bucket_berlin)) _
      (List.Pairwise.sublist (List.dropWhile_sublist _) hprices) htl]
    apply List.map_congr_left
    intro p hp
    have hdle : point.date_bucket_berlin ≤ p.date_bucket_berlin := hhd p hp
    have hsplit : prices =
        (prices.takeWhile fun pr =>
          decide (pr.date_bucket_berlin ≤ point.date_bucket_berlin)) ++
        (prices.dropWhile fun pr =>
          decide (pr.date_bucket_berlin ≤ point.date_bucket_berlin)) :=
      (List.takeWhile_append_dropWhile _ _).symm
    have hfilterA : ((prices.takeWhile fun pr =>
        decide (pr.date_bucket_berlin ≤ point.date_bucket_berlin)).filter fun pr =>
          decide (pr.date_bucket_berlin ≤ p.date_bucket_berlin)) =
        prices.takeWhile fun pr =>
          decide (pr.date_bucket_berlin ≤ point.date_bucket_berlin) := by
      rw [List.filter_eq_self]
      intro x hx
      have hxq := List.mem_takeWhile_imp hx
      simp only [decide_eq_true_eq] at hxq ⊢
      omega
    conv_rhs => rw [hsplit]
    rw [List.filter_append, hfilterA, List.getLast?_append]
    cases hB : ((prices.dropWhile fun pr =>
        decide (pr.date_bucket_berlin ≤ point.date_bucket_berlin)).filter fun pr =>
          decide (pr.date_bucket_berlin ≤ p.date_bucket_berlin)).getLast? with
    | some pr => simp
    | none => simp only [Option.none_or]

/-- The `localeCompare` sort of the price points is ascending in the date
bucket. -/
theorem sortPricesByDate_sorted (prices : List TickerPricePoint) :
    (sortPricesByDate prices).Pairwise
      (fun a b => a.date_bucket_berlin ≤ b.date_bucket_berlin) := by
  have h : (sortPricesByDate prices).Pairwise
      (fun a b => decide (a.date_bucket_berlin ≤ b.date_bucket_berlin) = true) := by
    unfold sortPricesByDate
    apply List.sorted_mergeSort
    · intro a b c hab hbc
      simp only [decide_eq_true_eq] at hab hbc ⊢
      omega
    · intro a b
      rcases Nat.le_total a.date_bucket_berlin b.date_bucket_berlin with h | h <;>
        simp [h]
  exact h.imp fun hab => of_decide_eq_true hab

/-- C10 (counterexample): on points whose date buckets are not in
ascending order, the cursor of `alignPricesToPoints` has already moved
past earlier price points, so an entry can report a close price dated
after its point's bucket; the claimed per-entry description fails on the
two-point input below. -/
theorem alignPricesToPoints_counterexample :
    alignPricesToPoints
        [⟨2, 0⟩, ⟨1, 0⟩] [⟨2, 3⟩] ≠
      alignPricesClaimed [⟨2, 0⟩, ⟨1, 0⟩] [⟨2, 3⟩] ∧
    alignPricesToPoints [⟨2, 0⟩, ⟨1, 0⟩] [⟨2, 3⟩] = [some 3, some 3] ∧
    alignPricesClaimed [⟨2, 0⟩, ⟨1, 0⟩] [⟨2, 3⟩] = [some 3, none] := by
  have hsort : sortPricesByDate [(⟨2, 3⟩ : TickerPricePoint)] = [⟨2, 3⟩] := by
    simp [sortPricesByDate]
  refine ⟨?_, ?_, ?_⟩ <;>
    simp only [alignPricesToPoints, alignPricesClaimed, hsort] <;> decide

/-- C10 (amended): for every list of points whose date buckets are
nondecreasing — the order in which the ticker series endpoint delivers
them — and every list of price points, `alignPricesToPoints` returns one
entry per point, and entry `i` is the close price of the latest
(date-sorted last) price point whose date bucket is at or before that of
`points[i]`, `null` when there is none. -/
theorem alignPricesToPoints_sorted_spec (points : List TickerPoint)
    (pricePoints : List TickerPricePoint)
    (hpoints : points.Pairwise
      (fun a b => a.date_bucket_berlin ≤ b.date_bucket_berlin)) :
    (alignPricesToPoints points pricePoints).length = points.length ∧
      alignPricesToPoints points pricePoints =
        alignPricesClaimed points pricePoints := by
  have hclaimed : alignPricesClaimed points pricePoints =
      points.map fun point =>
        ((sortPricesByDate pricePoints).filter fun price =>
            decide (price.date_bucket_berlin ≤ point.date_bucket_berlin)).getLast?.map
          fun price => price.close_price := rfl
  have hmain : alignPricesToPoints points pricePoints =
      alignPricesClaimed points pricePoints := by
    rw [hclaimed]
    unfold alignPricesToPoints
    by_cases hempty : (points.isEmpty || pricePoints.isEmpty) = true
    · rw [if_pos hempty]
      cases points with
      | nil => simp
      | cons p ps =>
        cases pricePoints with
        | nil =>
          have hnil : sortPricesByDate [] = [] := by
            simp [sortPricesByDate]
          simp [hnil]
        | cons q qs => simp at hempty
    · rw [if_neg hempty]
      rw [alignLoop_eq points (sortPricesByDate pricePoints) none
        (sortPricesByDate_sorted pricePoints) hpoints]
      apply List.map_congr_left
      intro p hp
      cases h : ((sortPricesByDate pricePoints).filter fun price =>
          decide (price.date_bucket_berlin ≤ p.date_bucket_berlin)).getLast? <;>
        simp [h]
  exact ⟨by rw [hmain, hclaimed]; simp, hmain⟩

theorem alignPricesToPoints_sorted_spec_witness :
    (alignPricesToPoints [⟨1, 0⟩, ⟨2, 0⟩] [⟨2, 3⟩, ⟨1, 5⟩]).length =
        ([⟨1, 0⟩, ⟨2, 0⟩] : List TickerPoint).length ∧
      alignPricesToPoints [⟨1, 0⟩, ⟨2, 0⟩] [⟨2, 3⟩, ⟨1, 5⟩] =
        alignPricesClaimed [⟨1, 0⟩, ⟨2, 0⟩] [⟨2, 3⟩, ⟨1, 5⟩] :=
  alignPricesToPoints_sorted_spec [⟨1, 0⟩, ⟨2, 0⟩] [⟨2, 3⟩, ⟨1, 5⟩] (by decide)

end FinanceSentiment
